import Mathlib

/-!
Shallow embedding of the expense-tracker backend (Express + Mongoose).

Sources embedded here:
* src/models/Expense.js        — schema invariants, getMonthlySummary static
* src/controllers/expenseController.js — getAllExpenses, getExpenseById,
  updateExpense, deleteExpense
* src/controllers/reportController.js  — getMonthlyReport, getCategoryReport,
  getOverallStats

Modelling conventions:
* JS numbers (amounts) are modelled as exact rationals `ℚ`; `x.toFixed(2)`
  followed by `parseFloat` is modelled as rounding to the nearest multiple of
  1/100 (`round2`).
* MongoDB documents live in a `List Expense`; a query filter is a Boolean
  predicate, `find`/`countDocuments` are `List.filter`/`length`,
  `findOne` is `List.find?`, `findOneAndDelete` is `find?` + `eraseP`,
  and `sort` is `List.insertionSort` with an explicit relation.
* JS `Date` values are UTC calendar tuples at millisecond resolution,
  ordered through the injective linear encoding `DateTime.key`.
* The `$group` aggregation stage is the fold `groupAgg`, which produces one
  `(key, sum, count)` entry per distinct key, in first-occurrence order
  (the concrete order is irrelevant: every theorem below is stated up to
  the explicit `$sort` that follows the grouping in the source).
-/

/-! ### Dates (JS `Date`, UTC, millisecond resolution) -/

structure DateTime where
  year : Nat
  month : Nat
  day : Nat
  hour : Nat
  minute : Nat
  second : Nat
  ms : Nat
deriving DecidableEq, Repr

/-- Injective linear encoding of a calendar tuple; comparisons on `key`
agree with chronological order for valid dates. -/
def DateTime.key (d : DateTime) : Nat :=
  (((((d.year * 13 + d.month) * 32 + d.day) * 24 + d.hour) * 60 + d.minute) * 60 + d.second)
    * 1000 + d.ms

/-- Gregorian leap-year rule, as implemented by JS `Date` rollover. -/
def isLeap (y : Nat) : Bool :=
  (y % 4 == 0 && y % 100 != 0) || (y % 400 == 0)

/-- Number of days of month `m` (1-based) of year `y`; this is the value of
the JS expression `new Date(y, m, 0).getDate()` ("day 0 of the next month"). -/
def daysInMonth (y m : Nat) : Nat :=
  if m = 2 then (if isLeap y then 29 else 28)
  else if m = 4 ∨ m = 6 ∨ m = 9 ∨ m = 11 then 30
  else 31

/-- A well-formed calendar date (what a real JS `Date` can hold). -/
def DateTime.valid (d : DateTime) : Prop :=
  1 ≤ d.month ∧ d.month ≤ 12 ∧ 1 ≤ d.day ∧ d.day ≤ daysInMonth d.year d.month ∧
    d.hour ≤ 23 ∧ d.minute ≤ 59 ∧ d.second ≤ 59 ∧ d.ms ≤ 999

instance (d : DateTime) : Decidable d.valid := by
  unfold DateTime.valid; infer_instance

/-- `new Date(year, month - 1, 1)` — first instant of the month. -/
def monthStart (y m : Nat) : DateTime := ⟨y, m, 1, 0, 0, 0, 0⟩

/-- `new Date(year, month, 0, 23, 59, 59)` — last day of the month at
23:59:59 (and 0 milliseconds). -/
def monthEnd (y m : Nat) : DateTime := ⟨y, m, daysInMonth y m, 23, 59, 59, 0⟩

/-- The `date: { $gte: startDate, $lte: endDate }` window of
`getMonthlySummary` / `getMonthlyReport`. -/
def dateInWindow (d : DateTime) (y m : Nat) : Bool :=
  (monthStart y m).key ≤ d.key && d.key ≤ (monthEnd y m).key

/-! ### Amount rounding -/

/-- `parseFloat(x.toFixed(2))`: round to the nearest multiple of 1/100. -/
def round2 (q : ℚ) : ℚ := (round (100 * q) : ℤ) / 100

/-! ### Expense records (src/models/Expense.js) -/

structure Expense where
  id : Nat
  userId : String
  title : String
  amount : ℚ
  category : String
  date : DateTime
  notes : String
  paymentMethod : String
  createdAt : DateTime
deriving DecidableEq, Repr

/-! ### `$group` aggregation: fold into (key, sum, count) entries -/

/-- One accumulator step: add `a` to the entry keyed `k`, or append a fresh
`(k, a, 1)` entry when `k` is new. -/
def upsert (k : String) (a : ℚ) : List (String × ℚ × Nat) → List (String × ℚ × Nat)
  | [] => [(k, a, 1)]
  | (k', s, c) :: t =>
      if k' = k then (k', s + a, c + 1) :: t else (k', s, c) :: upsert k a t

/-- `$group: { _id: key, total: { $sum: val }, count: { $sum: 1 } }`,
entries in first-occurrence order of the key. -/
def groupAgg (key : Expense → String) (val : Expense → ℚ) (l : List Expense) :
    List (String × ℚ × Nat) :=
  l.foldl (fun acc e => upsert (key e) (val e) acc) []

/-- Sum of the per-group sums. -/
def gSum (g : List (String × ℚ × Nat)) : ℚ := (g.map (fun x => x.2.1)).sum

/-- Sum of the per-group counts. -/
def gCount (g : List (String × ℚ × Nat)) : Nat := (g.map (fun x => x.2.2)).sum

theorem gSum_upsert (k : String) (a : ℚ) (g : List (String × ℚ × Nat)) :
    gSum (upsert k a g) = gSum g + a := by
  induction g with
  | nil => simp [upsert, gSum]
  | cons h t ih =>
      obtain ⟨k', s, c⟩ := h
      by_cases hk : k' = k <;> simp [upsert, hk, gSum] at ih ⊢ <;> ring_nf
      rw [ih]; ring

theorem gCount_upsert (k : String) (a : ℚ) (g : List (String × ℚ × Nat)) :
    gCount (upsert k a g) = gCount g + 1 := by
  induction g with
  | nil => simp [upsert, gCount]
  | cons h t ih =>
      obtain ⟨k', s, c⟩ := h
      by_cases hk : k' = k <;> simp [upsert, hk, gCount] at ih ⊢ <;> omega

theorem gSum_groupAgg_aux (key : Expense → String) (val : Expense → ℚ)
    (l : List Expense) :
    ∀ acc, gSum (l.foldl (fun acc e => upsert (key e) (val e) acc) acc)
      = gSum acc + (l.map val).sum := by
  induction l with
  | nil => intro acc; simp
  | cons e t ih =>
      intro acc
      simp only [List.foldl_cons, List.map_cons, List.sum_cons]
      rw [ih, gSum_upsert]; ring

/-- The sum of the group sums is the sum of all values. -/
theorem gSum_groupAgg (key : Expense → String) (val : Expense → ℚ)
    (l : List Expense) : gSum (groupAgg key val l) = (l.map val).sum := by
  have h := gSum_groupAgg_aux key val l []
  simpa [groupAgg, gSum] using h

theorem gCount_groupAgg_aux (key : Expense → String) (val : Expense → ℚ)
    (l : List Expense) :
    ∀ acc, gCount (l.foldl (fun acc e => upsert (key e) (val e) acc) acc)
      = gCount acc + l.length := by
  induction l with
  | nil => intro acc; simp
  | cons e t ih =>
      intro acc
      simp only [List.foldl_cons, List.length_cons]
      rw [ih, gCount_upsert]; omega

/-- The sum of the group counts is the number of records. -/
theorem gCount_groupAgg (key : Expense → String) (val : Expense → ℚ)
    (l : List Expense) : gCount (groupAgg key val l) = l.length := by
  have h := gCount_groupAgg_aux key val l []
  simpa [groupAgg, gCount] using h

/-- Look up the accumulator entry for key `k`. -/
def gfind (k : String) (g : List (String × ℚ × Nat)) : Option (ℚ × Nat) :=
  (g.find? (fun x => x.1 == k)).map (fun x => x.2)

/-- One scalar accumulation step for a single key. -/
def upd (o : Option (ℚ × Nat)) (a : ℚ) : Option (ℚ × Nat) :=
  match o with
  | none => some (a, 1)
  | some (s, c) => some (s + a, c + 1)

def optS (o : Option (ℚ × Nat)) : ℚ :=
  match o with
  | none => 0
  | some (s, _) => s

def optC (o : Option (ℚ × Nat)) : Nat :=
  match o with
  | none => 0
  | some (_, c) => c

theorem gfind_cons_pos (k k' : String) (s : ℚ) (c : Nat)
    (t : List (String × ℚ × Nat)) (h : k' = k) :
    gfind k ((k', s, c) :: t) = some (s, c) := by
  unfold gfind
  rw [List.find?_cons_of_pos]
  · rfl
  · simp [h]

theorem gfind_cons_neg (k k' : String) (s : ℚ) (c : Nat)
    (t : List (String × ℚ × Nat)) (h : ¬ k' = k) :
    gfind k ((k', s, c) :: t) = gfind k t := by
  unfold gfind
  rw [List.find?_cons_of_neg]
  simp [h]

theorem gfind_upsert (k k1 : String) (a : ℚ) (g : List (String × ℚ × Nat)) :
    gfind k (upsert k1 a g)
      = if k1 = k then upd (gfind k g) a else gfind k g := by
  induction g with
  | nil =>
      by_cases h : k1 = k
      · rw [if_pos h]
        show gfind k [(k1, a, 1)] = upd (gfind k []) a
        rw [gfind_cons_pos k k1 a 1 [] h]
        rfl
      · rw [if_neg h]
        show gfind k [(k1, a, 1)] = gfind k []
        rw [gfind_cons_neg k k1 a 1 [] h]
  | cons hd t ih =>
      obtain ⟨k', s, c⟩ := hd
      by_cases h1 : k' = k1
      · rw [show upsert k1 a ((k', s, c) :: t) = (k', s + a, c + 1) :: t by
          simp [upsert, h1]]
        by_cases h2 : k' = k
        · have hk : k1 = k := h1 ▸ h2
          rw [if_pos hk, gfind_cons_pos k k' _ _ t h2, gfind_cons_pos k k' _ _ t h2]
          rfl
        · have hk : ¬ k1 = k := fun h => h2 (h1 ▸ h)
          rw [if_neg hk, gfind_cons_neg k k' _ _ t h2, gfind_cons_neg k k' _ _ t h2]
      · rw [show upsert k1 a ((k', s, c) :: t) = (k', s, c) :: upsert k1 a t by
          simp [upsert, h1]]
        by_cases h2 : k' = k
        · have hk : ¬ k1 = k := fun h => h1 (h ▸ h2)
          rw [if_neg hk, gfind_cons_pos k k' _ _ _ h2, gfind_cons_pos k k' _ _ t h2]
        · rw [gfind_cons_neg k k' _ _ _ h2, gfind_cons_neg k k' _ _ t h2, ih]

/-- `gfind` commutes with the grouping fold, turning it into a scalar fold. -/
theorem gfind_foldl (key : Expense → String) (val : Expense → ℚ) (k : String) :
    ∀ (l : List Expense) (acc : List (String × ℚ × Nat)),
      gfind k (l.foldl (fun acc e => upsert (key e) (val e) acc) acc)
        = l.foldl (fun o e => if key e = k then upd o (val e) else o) (gfind k acc) := by
  intro l
  induction l with
  | nil => intro acc; simp
  | cons e t ih =>
      intro acc
      simp only [List.foldl_cons]
      rw [ih, gfind_upsert]

theorem optS_scalarFold (key : Expense → String) (val : Expense → ℚ) (k : String) :
    ∀ (l : List Expense) (o : Option (ℚ × Nat)),
      optS (l.foldl (fun o e => if key e = k then upd o (val e) else o) o)
        = optS o + (((l.filter (fun e => key e == k)).map val).sum) := by
  intro l
  induction l with
  | nil => intro o; simp
  | cons e t ih =>
      intro o
      by_cases h : key e = k
      · have hb : (key e == k) = true := by simp [h]
        rw [List.foldl_cons, if_pos h, @List.filter_cons_of_pos Expense (fun x => key x == k) e t hb, List.map_cons,
          List.sum_cons, ih]
        have hupd : optS (upd o (val e)) = optS o + val e := by
          cases o with
          | none => simp [upd, optS]
          | some p => obtain ⟨s, c⟩ := p; simp [upd, optS]
        rw [hupd]; ring
      · have hb : ¬ ((key e == k) = true) := by simp [h]
        rw [List.foldl_cons, if_neg h, @List.filter_cons_of_neg Expense (fun x => key x == k) e t hb, ih]

theorem optC_scalarFold (key : Expense → String) (val : Expense → ℚ) (k : String) :
    ∀ (l : List Expense) (o : Option (ℚ × Nat)),
      optC (l.foldl (fun o e => if key e = k then upd o (val e) else o) o)
        = optC o + (l.filter (fun e => key e == k)).length := by
  intro l
  induction l with
  | nil => intro o; simp
  | cons e t ih =>
      intro o
      by_cases h : key e = k
      · have hb : (key e == k) = true := by simp [h]
        rw [List.foldl_cons, if_pos h, @List.filter_cons_of_pos Expense (fun x => key x == k) e t hb,
          List.length_cons, ih]
        have hupd : optC (upd o (val e)) = optC o + 1 := by
          cases o with
          | none => simp [upd, optC]
          | some p => obtain ⟨s, c⟩ := p; simp [upd, optC]
        rw [hupd]; omega
      · have hb : ¬ ((key e == k) = true) := by simp [h]
        rw [List.foldl_cons, if_neg h, @List.filter_cons_of_neg Expense (fun x => key x == k) e t hb, ih]

theorem isSome_scalarFold (key : Expense → String) (val : Expense → ℚ) (k : String) :
    ∀ (l : List Expense) (o : Option (ℚ × Nat)),
      (l.foldl (fun o e => if key e = k then upd o (val e) else o) o).isSome
        = (o.isSome || !(l.filter (fun e => key e == k)).isEmpty) := by
  intro l
  induction l with
  | nil => intro o; simp
  | cons e t ih =>
      intro o
      by_cases h : key e = k
      · have hb : (key e == k) = true := by simp [h]
        rw [List.foldl_cons, if_pos h, @List.filter_cons_of_pos Expense (fun x => key x == k) e t hb, ih]
        have hupd : (upd o (val e)).isSome = true := by
          cases o with
          | none => simp [upd]
          | some p => obtain ⟨s, c⟩ := p; simp [upd]
        simp [hupd]
      · have hb : ¬ ((key e == k) = true) := by simp [h]
        rw [List.foldl_cons, if_neg h, @List.filter_cons_of_neg Expense (fun x => key x == k) e t hb, ih]

def gkeys (g : List (String × ℚ × Nat)) : List String := g.map (fun x => x.1)

theorem gkeys_upsert (k : String) (a : ℚ) (g : List (String × ℚ × Nat)) :
    gkeys (upsert k a g) = if k ∈ gkeys g then gkeys g else gkeys g ++ [k] := by
  induction g with
  | nil => simp [upsert, gkeys]
  | cons hd t ih =>
      obtain ⟨k', s, c⟩ := hd
      by_cases h : k' = k
      · subst h; simp [upsert, gkeys]
      · have hne : ¬ k = k' := fun hh => h hh.symm
        rw [show upsert k a ((k', s, c) :: t) = (k', s, c) :: upsert k a t by
          simp [upsert, h]]
        by_cases hm : k ∈ gkeys t
        · have hm2 : k ∈ gkeys ((k', s, c) :: t) := by simp [gkeys] at hm ⊢; tauto
          rw [if_pos hm2]
          show k' :: gkeys (upsert k a t) = _
          rw [ih, if_pos hm]; rfl
        · have hm2 : ¬ k ∈ gkeys ((k', s, c) :: t) := by
            simp [gkeys] at hm ⊢; tauto
          rw [if_neg hm2]
          show k' :: gkeys (upsert k a t) = _
          rw [ih, if_neg hm]; rfl

theorem nodup_gkeys_upsert (k : String) (a : ℚ) (g : List (String × ℚ × Nat))
    (h : (gkeys g).Nodup) : (gkeys (upsert k a g)).Nodup := by
  rw [gkeys_upsert]
  by_cases hm : k ∈ gkeys g
  · simpa [hm] using h
  · rw [if_neg hm]
    simp only [List.nodup_append, List.nodup_cons, List.nodup_nil]
    refine ⟨h, by simp, ?_⟩
    intro x hx
    simp only [List.mem_singleton]
    intro hxk; subst hxk; exact hm hx

theorem nodup_gkeys_foldl (key : Expense → String) (val : Expense → ℚ) :
    ∀ (l : List Expense) (acc : List (String × ℚ × Nat)), (gkeys acc).Nodup →
      (gkeys (l.foldl (fun acc e => upsert (key e) (val e) acc) acc)).Nodup := by
  intro l
  induction l with
  | nil => intro acc h; simpa
  | cons e t ih => intro acc h; exact ih _ (nodup_gkeys_upsert _ _ _ h)

/-- The `$group` stage emits one entry per distinct key. -/
theorem nodup_gkeys_groupAgg (key : Expense → String) (val : Expense → ℚ)
    (l : List Expense) : (gkeys (groupAgg key val l)).Nodup :=
  nodup_gkeys_foldl key val l [] (by simp [gkeys])

theorem gfind_of_mem (k : String) (s : ℚ) (c : Nat) (g : List (String × ℚ × Nat))
    (hn : (gkeys g).Nodup) (hm : (k, s, c) ∈ g) : gfind k g = some (s, c) := by
  induction g with
  | nil => simp at hm
  | cons hd t ih =>
      obtain ⟨k', s', c'⟩ := hd
      rcases List.mem_cons.mp hm with heq | hmt
      · have hk : k' = k := by injection heq with h1 h2; exact h1.symm
        have hsc : s' = s ∧ c' = c := by
          injection heq with h1 h2; injection h2 with h3 h4
          exact ⟨h3.symm, h4.symm⟩
        rw [gfind_cons_pos k k' s' c' t hk, hsc.1, hsc.2]
      · have hkt : k ∈ gkeys t := by
          simp only [gkeys, List.mem_map]
          exact ⟨(k, s, c), hmt, rfl⟩
        have hcons : gkeys ((k', s', c') :: t) = k' :: gkeys t := rfl
        rw [hcons] at hn
        have hn2 := List.nodup_cons.mp hn
        have hk : ¬ k' = k := fun hh => hn2.1 (hh ▸ hkt)
        rw [gfind_cons_neg k k' s' c' t hk]
        exact ih hn2.2 hmt

theorem mem_of_gfind (k : String) (s : ℚ) (c : Nat) (g : List (String × ℚ × Nat))
    (h : gfind k g = some (s, c)) : (k, s, c) ∈ g := by
  unfold gfind at h
  cases hf : g.find? (fun x => x.1 == k) with
  | none => rw [hf] at h; simp at h
  | some x =>
      rw [hf] at h
      have h2 : x.2 = (s, c) := by simpa using h
      have hx := List.find?_some hf
      have hmem : x ∈ g := List.mem_of_find?_eq_some hf
      obtain ⟨xk, xs, xc⟩ := x
      simp only [beq_iff_eq] at hx
      injection h2 with h3 h4
      subst hx; subst h3; subst h4
      exact hmem

theorem gfind_groupAgg (key : Expense → String) (val : Expense → ℚ)
    (l : List Expense) (k : String) :
    gfind k (groupAgg key val l)
      = l.foldl (fun o e => if key e = k then upd o (val e) else o) none := by
  have h := gfind_foldl key val k l []
  simpa [groupAgg, gfind] using h

/-- Every `$group` output entry carries exactly the sum and the count of the
records that have its key, and its key really occurs among the records. -/
theorem groupAgg_entry (key : Expense → String) (val : Expense → ℚ)
    (l : List Expense) (k : String) (s : ℚ) (c : Nat)
    (hm : (k, s, c) ∈ groupAgg key val l) :
    s = ((l.filter (fun e => key e == k)).map val).sum
      ∧ c = (l.filter (fun e => key e == k)).length
      ∧ (l.filter (fun e => key e == k)) ≠ [] := by
  have hf : gfind k (groupAgg key val l) = some (s, c) :=
    gfind_of_mem _ _ _ _ (nodup_gkeys_groupAgg key val l) hm
  rw [gfind_groupAgg] at hf
  have hS := optS_scalarFold key val k l none
  have hC := optC_scalarFold key val k l none
  have hI := isSome_scalarFold key val k l none
  rw [hf] at hS hC hI
  refine ⟨by simpa [optS] using hS, by simpa [optC] using hC, ?_⟩
  intro hnil
  rw [hnil] at hI
  simp at hI

/-- Every record's key shows up as a `$group` output entry. -/
theorem groupAgg_covers (key : Expense → String) (val : Expense → ℚ)
    (l : List Expense) (e : Expense) (he : e ∈ l) :
    ∃ s c, (key e, s, c) ∈ groupAgg key val l := by
  have hI := isSome_scalarFold key val (key e) l none
  rw [← gfind_groupAgg key val l (key e)] at hI
  have hne : ¬ ((l.filter (fun x => key x == key e)).isEmpty = true) := by
    intro h
    have hmem : e ∈ l.filter (fun x => key x == key e) := by
      simp [List.mem_filter, he]
    rw [List.isEmpty_iff.mp h] at hmem
    simp at hmem
  have hsome : (gfind (key e) (groupAgg key val l)).isSome = true := by
    rw [hI]
    simp only [Option.isSome_none, Bool.false_or, Bool.not_eq_true']
    exact Bool.not_eq_true _ ▸ (by simpa using hne)
  obtain ⟨p, hp⟩ := Option.isSome_iff_exists.mp hsome
  obtain ⟨s, c⟩ := p
  exact ⟨s, c, mem_of_gfind _ _ _ _ hp⟩

/-- The `$group` stage emits no entries exactly when no records matched. -/
theorem groupAgg_eq_nil_iff (key : Expense → String) (val : Expense → ℚ)
    (l : List Expense) : groupAgg key val l = [] ↔ l = [] := by
  constructor
  · intro h
    cases l with
    | nil => rfl
    | cons e t =>
        obtain ⟨s, c, hm⟩ := groupAgg_covers key val (e :: t) e (by simp)
        rw [h] at hm
        simp at hm
  · intro h; subst h; rfl

/-! ### Sort relations used by the controllers -/

/-- `$sort: { totalAmount: -1 }` on `$group` output. -/
def amountDescRel (a b : String × ℚ × Nat) : Prop := b.2.1 ≤ a.2.1

instance : DecidableRel amountDescRel := fun a b => by
  unfold amountDescRel; infer_instance

instance : IsTotal (String × ℚ × Nat) amountDescRel :=
  ⟨fun a b => le_total b.2.1 a.2.1⟩

instance : IsTrans (String × ℚ × Nat) amountDescRel :=
  ⟨fun _ _ _ h1 h2 => le_trans h2 h1⟩

/-- `.sort({ date: -1 })`. -/
def dateDescRel (a b : Expense) : Prop := b.date.key ≤ a.date.key

instance : DecidableRel dateDescRel := fun a b => by
  unfold dateDescRel; infer_instance

instance : IsTotal Expense dateDescRel :=
  ⟨fun a b => le_total b.date.key a.date.key⟩

instance : IsTrans Expense dateDescRel :=
  ⟨fun _ _ _ h1 h2 => le_trans h2 h1⟩

/-- `.sort((a, b) => a.month.localeCompare(b.month))` on trend groups. -/
def monthAscRel (a b : String × ℚ × Nat) : Prop := a.1 ≤ b.1

instance : DecidableRel monthAscRel := fun a b => by
  unfold monthAscRel; infer_instance

instance : IsTotal (String × ℚ × Nat) monthAscRel :=
  ⟨fun a b => le_total a.1 b.1⟩

instance : IsTrans (String × ℚ × Nat) monthAscRel :=
  ⟨fun _ _ _ h1 h2 => le_trans h1 h2⟩

/-! ### Expense.getMonthlySummary (src/models/Expense.js, lines 103-142) -/

/-- The `$match` predicate of `getMonthlySummary` (and the `find` filter of
`getMonthlyReport`): owned by `uid` and dated inside the month window. -/
def matchesMonth (uid : String) (y m : Nat) (e : Expense) : Bool :=
  e.userId == uid && dateInWindow e.date y m

structure BreakdownEntry where
  category : String
  amount : ℚ
  count : Nat
  percentage : ℚ
deriving DecidableEq, Repr

structure MonthlySummary where
  month : Nat
  year : Nat
  totalExpenses : ℚ
  totalTransactions : Nat
  categoryBreakdown : List BreakdownEntry
deriving DecidableEq, Repr

/-- The aggregate's output: `$match` → `$group` by category → `$sort` by
descending total. -/
def monthlyGroups (uid : String) (m y : Nat) (db : List Expense) :
    List (String × ℚ × Nat) :=
  List.insertionSort amountDescRel
    (groupAgg (fun e => e.category) (fun e => e.amount)
      (db.filter (matchesMonth uid y m)))

/-- The JS variable `totalExpenses` of `getMonthlySummary` before `toFixed`:
the reduce-sum of the group sums. -/
def monthlyRawTotal (uid : String) (m y : Nat) (db : List Expense) : ℚ :=
  gSum (monthlyGroups uid m y db)

def getMonthlySummary (uid : String) (m y : Nat) (db : List Expense) :
    MonthlySummary :=
  let summary := monthlyGroups uid m y db
  let totalExpenses := gSum summary
  let totalTransactions := gCount summary
  { month := m
  , year := y
  , totalExpenses := round2 totalExpenses
  , totalTransactions := totalTransactions
  , categoryBreakdown := summary.map (fun item =>
      { category := item.1
      , amount := round2 item.2.1
      , count := item.2.2
      , percentage := round2 (item.2.1 / totalExpenses * 100) }) }

/-- The record list returned next to the summary by `getMonthlyReport`
(src/controllers/reportController.js, lines 24-33). -/
def monthlyReportExpenses (uid : String) (m y : Nat) (db : List Expense) :
    List Expense :=
  List.insertionSort dateDescRel (db.filter (matchesMonth uid y m))

/-! ### getAllExpenses (src/controllers/expenseController.js, lines 15-90) -/

structure ListQuery where
  category : Option String
  startDate : Option DateTime
  endDate : Option DateTime
  limit : Option Nat
  page : Nat
deriving DecidableEq, Repr

/-- The Mongo filter built at lines 28-45. -/
def matchesFilter (uid : String) (q : ListQuery) (e : Expense) : Bool :=
  e.userId == uid
    && (match q.category with | none => true | some c => e.category == c)
    && (match q.startDate with | none => true | some s => s.key ≤ e.date.key)
    && (match q.endDate with | none => true | some t => e.date.key ≤ t.key)

structure Pagination where
  currentPage : Nat
  totalPages : Nat
  totalExpenses : Nat
  expensesPerPage : Nat
deriving DecidableEq, Repr

structure ListResponse where
  expenses : List Expense
  pagination : Option Pagination
  summaryTotalExpenses : Nat
  summaryTotalAmount : ℚ
deriving DecidableEq, Repr

/-- `Math.ceil(n / p)` for naturals (`p > 0`). -/
def ceilDiv (n p : Nat) : Nat := (n + p - 1) / p

/-- The list endpoint. `r` is the sort relation denoted by the
`sortBy`/`order` query parameters (default `{ date: -1 }`, i.e.
`dateDescRel`). A `limit` of 0 is falsy in JS, so it behaves as no limit. -/
def getAllExpenses (r : Expense → Expense → Prop) [DecidableRel r]
    (uid : String) (q : ListQuery) (db : List Expense) : ListResponse :=
  let filtered := db.filter (matchesFilter uid q)
  let sorted := List.insertionSort r filtered
  let limitNum : Option Nat :=
    match q.limit with
    | none => none
    | some p => if p = 0 then none else some p
  let expenses :=
    match limitNum with
    | none => sorted
    | some p => (sorted.drop ((q.page - 1) * p)).take p
  let totalExpenses := filtered.length
  let totalAmount := (expenses.map (fun e => e.amount)).sum
  { expenses := expenses
  , pagination := limitNum.map (fun p =>
      { currentPage := q.page
      , totalPages := ceilDiv totalExpenses p
      , totalExpenses := totalExpenses
      , expensesPerPage := p })
  , summaryTotalExpenses := totalExpenses
  , summaryTotalAmount := round2 totalAmount }

/-! ### Get / update / delete by id (expenseController.js, lines 97-216) -/

/-- `{ _id: id, userId: uid }`. -/
def ownsMatch (uid : String) (id : Nat) (e : Expense) : Bool :=
  e.id == id && e.userId == uid

/-- `Expense.findOne({ _id: id, userId: uid })`. -/
def getExpenseById (uid : String) (id : Nat) (db : List Expense) :
    Option Expense :=
  db.find? (ownsMatch uid id)

/-- A PUT request body. Each allow-listed field is optional; `userId` and
`createdAt` stand for body keys outside the allow-list
(`allowedUpdates = ['title','amount','category','date','notes','paymentMethod']`). -/
structure UpdateBody where
  title : Option String
  amount : Option ℚ
  category : Option String
  date : Option DateTime
  notes : Option String
  paymentMethod : Option String
  userId : Option String
  createdAt : Option DateTime
deriving DecidableEq, Repr

/-- The key-scan at lines 169-174: copy exactly the allow-listed keys that
are present in the body; any other key of the body is ignored. -/
def applyUpdates (b : UpdateBody) (e : Expense) : Expense :=
  { e with
    title := b.title.getD e.title
    amount := b.amount.getD e.amount
    category := b.category.getD e.category
    date := b.date.getD e.date
    notes := b.notes.getD e.notes
    paymentMethod := b.paymentMethod.getD e.paymentMethod }

/-- `findOne` + field scan + `save()`; returns the sent record and the store
after the write. -/
def updateExpense (uid : String) (id : Nat) (b : UpdateBody)
    (db : List Expense) : Option Expense × List Expense :=
  match db.find? (ownsMatch uid id) with
  | none => (none, db)
  | some e => (some (applyUpdates b e),
      db.map (fun x => if ownsMatch uid id x then applyUpdates b x else x))

/-- `Expense.findOneAndDelete({ _id: id, userId: uid })`. -/
def deleteExpense (uid : String) (id : Nat) (db : List Expense) :
    Option Expense × List Expense :=
  match db.find? (ownsMatch uid id) with
  | none => (none, db)
  | some e => (some e, db.eraseP (ownsMatch uid id))

/-! ### getCategoryReport (src/controllers/reportController.js, lines 62-137) -/

/-- The filter built at lines 68-80: owner, exact category, optional
inclusive date bounds. -/
def matchesCategoryFilter (uid cat : String) (sd ed : Option DateTime)
    (e : Expense) : Bool :=
  e.userId == uid && e.category == cat
    && (match sd with | none => true | some s => s.key ≤ e.date.key)
    && (match ed with | none => true | some t => e.date.key ≤ t.key)

/-- `Math.max(...amounts)` for a non-empty list (the code only evaluates it
behind a non-emptiness guard; `0` is the guarded fallback). -/
def maxAmt : List ℚ → ℚ
  | [] => 0
  | a :: t => t.foldl max a

/-- `Math.min(...amounts)` with the same guard convention. -/
def minAmt : List ℚ → ℚ
  | [] => 0
  | a :: t => t.foldl min a

structure CategoryStatistics where
  totalExpenses : Nat
  totalAmount : ℚ
  averageAmount : ℚ
  maxExpense : ℚ
  minExpense : ℚ
deriving DecidableEq, Repr

/-- Lines 87-91 and 122-128 of reportController.js. -/
def categoryStatistics (l : List Expense) : CategoryStatistics :=
  let amounts := l.map (fun e => e.amount)
  let totalAmount := amounts.sum
  { totalExpenses := l.length
  , totalAmount := round2 totalAmount
  , averageAmount := round2 (if 0 < l.length then totalAmount / l.length else 0)
  , maxExpense := round2 (if 0 < l.length then maxAmt amounts else 0)
  , minExpense := round2 (if 0 < l.length then minAmt amounts else 0) }

/-- `pad`-to-2 rendering of the month part of an ISO string. -/
def pad2 (n : Nat) : String :=
  if n < 10 then "0" ++ toString n else toString n

/-- 4-digit rendering of the year part of an ISO string. -/
def pad4 (n : Nat) : String :=
  if n < 10 then "000" ++ toString n
  else if n < 100 then "00" ++ toString n
  else if n < 1000 then "0" ++ toString n
  else toString n

/-- `new Date(expense.date).toISOString().slice(0, 7)` — the "YYYY-MM"
month label (line 95). -/
def monthLabel (d : DateTime) : String := pad4 d.year ++ "-" ++ pad2 d.month

structure TrendEntry where
  month : String
  total : ℚ
  count : Nat
  average : ℚ
deriving DecidableEq, Repr

/-- Lines 93-115: reduce into an object keyed by month label, take the
values, sort them by label, and shape each entry. -/
def monthlyTrendOf (l : List Expense) : List TrendEntry :=
  let groups := groupAgg (fun e => monthLabel e.date) (fun e => e.amount) l
  (List.insertionSort monthAscRel groups).map (fun item =>
    { month := item.1
    , total := round2 item.2.1
    , count := item.2.2
    , average := round2 (item.2.1 / (item.2.2 : ℚ)) })

structure CategoryReport where
  category : String
  statistics : CategoryStatistics
  monthlyTrend : List TrendEntry
  expenses : List Expense
deriving DecidableEq, Repr

def getCategoryReport (uid cat : String) (sd ed : Option DateTime)
    (db : List Expense) : CategoryReport :=
  let expenses :=
    List.insertionSort dateDescRel (db.filter (matchesCategoryFilter uid cat sd ed))
  { category := cat
  , statistics := categoryStatistics expenses
  , monthlyTrend := monthlyTrendOf expenses
  , expenses := expenses }

/-! ### getOverallStats (src/controllers/reportController.js, lines 144-241) -/

/-- The filter built at lines 150-161: owner plus optional date bounds. -/
def matchesDateFilter (uid : String) (sd ed : Option DateTime)
    (e : Expense) : Bool :=
  e.userId == uid
    && (match sd with | none => true | some s => s.key ≤ e.date.key)
    && (match ed with | none => true | some t => e.date.key ≤ t.key)

structure OverallBlock where
  totalExpenses : Nat
  totalAmount : ℚ
  averageAmount : ℚ
  maxAmount : ℚ
  minAmount : ℚ
deriving DecidableEq, Repr

structure StatEntry where
  key : String
  total : ℚ
  count : Nat
  percentage : ℚ
deriving DecidableEq, Repr

structure OverallStats where
  overall : OverallBlock
  categoryBreakdown : List StatEntry
  paymentMethodBreakdown : List StatEntry
deriving DecidableEq, Repr

/-- The raw `overallStats.totalAmount` used as the percentage denominator
(the `$group: { _id: null, ... }` sum, or the 0 default when no document
matched). -/
def overallRawTotal (uid : String) (sd ed : Option DateTime)
    (db : List Expense) : ℚ :=
  ((db.filter (matchesDateFilter uid sd ed)).map (fun e => e.amount)).sum

def getOverallStats (uid : String) (sd ed : Option DateTime)
    (db : List Expense) : OverallStats :=
  let filtered := db.filter (matchesDateFilter uid sd ed)
  let amounts := filtered.map (fun e => e.amount)
  let totalAmount := amounts.sum
  let catStats := List.insertionSort amountDescRel
    (groupAgg (fun e => e.category) (fun e => e.amount) filtered)
  let payStats := List.insertionSort amountDescRel
    (groupAgg (fun e => e.paymentMethod) (fun e => e.amount) filtered)
  let shape : String × ℚ × Nat → StatEntry := fun item =>
    { key := item.1
    , total := round2 item.2.1
    , count := item.2.2
    , percentage := round2 (item.2.1 / totalAmount * 100) }
  { overall :=
      { totalExpenses := filtered.length
      , totalAmount := round2 totalAmount
      , averageAmount :=
          round2 (if 0 < filtered.length then totalAmount / filtered.length else 0)
      , maxAmount := round2 (maxAmt amounts)
      , minAmount := round2 (minAmt amounts) }
  , categoryBreakdown := catStats.map shape
  , paymentMethodBreakdown := payStats.map shape }

/-! ### Helper lemmas -/

theorem round2_mono {a b : ℚ} (h : a ≤ b) : round2 a ≤ round2 b := by
  unfold round2
  have hr : round (100 * a) ≤ round (100 * b) := by
    rw [round_eq, round_eq]
    exact Int.floor_mono (by linarith)
  have hc : ((round (100 * a) : ℤ) : ℚ) ≤ ((round (100 * b) : ℤ) : ℚ) := by
    exact_mod_cast hr
  linarith

theorem round2_nonneg {a : ℚ} (h : 0 ≤ a) : 0 ≤ round2 a := by
  have := round2_mono h
  simpa [round2] using this

theorem gSum_perm {g1 g2 : List (String × ℚ × Nat)} (h : g1.Perm g2) :
    gSum g1 = gSum g2 := by
  unfold gSum
  exact (h.map (fun x => x.2.1)).sum_eq

theorem gCount_perm {g1 g2 : List (String × ℚ × Nat)} (h : g1.Perm g2) :
    gCount g1 = gCount g2 := by
  unfold gCount
  exact (h.map (fun x => x.2.2)).sum_eq

theorem daysInMonth_bounds (y m : Nat) :
    28 ≤ daysInMonth y m ∧ daysInMonth y m ≤ 31 := by
  unfold daysInMonth
  split_ifs <;> omega

/-- Characterization of the month window over valid dates: it holds exactly
on dates of that month, except during the last 999 milliseconds of the
month (the `$lte` bound is 23:59:59.000 of the last day). -/
theorem dateInWindow_iff (d : DateTime) (y m : Nat) (hd : d.valid)
    (hm : 1 ≤ m ∧ m ≤ 12) :
    dateInWindow d y m = true ↔
      (d.year = y ∧ d.month = m ∧
        ¬(d.day = daysInMonth y m ∧ d.hour = 23 ∧ d.minute = 59 ∧
          d.second = 59 ∧ 1 ≤ d.ms)) := by
  obtain ⟨h1, h2, h3, h4, h5, h6, h7, h8⟩ := hd
  have hb1 := daysInMonth_bounds y m
  have hb2 := daysInMonth_bounds d.year d.month
  constructor
  · intro hw
    simp only [dateInWindow, monthStart, monthEnd, DateTime.key, Bool.and_eq_true,
      decide_eq_true_eq] at hw
    have hy : d.year = y ∧ d.month = m := by omega
    rw [hy.1, hy.2] at h4
    exact ⟨hy.1, hy.2, by omega⟩
  · intro hr
    obtain ⟨hy, hm2, hrest⟩ := hr
    rw [hy, hm2] at h4
    simp only [dateInWindow, monthStart, monthEnd, DateTime.key, Bool.and_eq_true,
      decide_eq_true_eq]
    omega

/-! ### Claim C2 — monthly report date window -/

/-- An expense dated in the last millisecond range of January 2025. -/
def lastMsDate : DateTime := ⟨2025, 1, 31, 23, 59, 59, 999⟩

def lastMsExpense : Expense :=
  ⟨1, "u", "late", 5, "Food", lastMsDate, "", "Cash", lastMsDate⟩

/-- C2 counterexample: `lastMsDate` is a valid date inside January 2025, yet
the expense carrying it is matched by neither the summary aggregation nor the
report query — the `$lte` bound `new Date(y, m, 0, 23, 59, 59)` cuts off the
final 999 milliseconds of the month, so "up to and including its final
instant" fails. -/
theorem C2_counterexample :
    lastMsDate.valid ∧ lastMsDate.year = 2025 ∧ lastMsDate.month = 1 ∧
      matchesMonth "u" 2025 1 lastMsExpense = false ∧
      monthlyReportExpenses "u" 1 2025 [lastMsExpense] = [] ∧
      (getMonthlySummary "u" 1 2025 [lastMsExpense]).totalTransactions = 0 := by
  decide

/-- C2 (amended): for month `m ∈ [1,12]` and a valid record date, the record
is matched exactly when it belongs to the user and is dated in that month at
or before 23:59:59.000 of the month's calendar-correct (leap-year-aware) last
day; dates in the final 999 ms of the month are excluded. The report's
record list contains exactly the matched records. -/
theorem C2_month_window (uid : String) (y m : Nat) (hm : 1 ≤ m ∧ m ≤ 12)
    (e : Expense) (hd : e.date.valid) :
    (matchesMonth uid y m e = true ↔
      (e.userId = uid ∧ e.date.year = y ∧ e.date.month = m ∧
        ¬(e.date.day = daysInMonth y m ∧ e.date.hour = 23 ∧
          e.date.minute = 59 ∧ e.date.second = 59 ∧ 1 ≤ e.date.ms)))
    ∧ (∀ db : List Expense, e ∈ monthlyReportExpenses uid m y db ↔
        (e ∈ db ∧ matchesMonth uid y m e = true)) := by
  constructor
  · unfold matchesMonth
    simp only [Bool.and_eq_true, beq_iff_eq]
    rw [dateInWindow_iff e.date y m hd hm]
  · intro db
    unfold monthlyReportExpenses
    rw [(List.perm_insertionSort dateDescRel
      (db.filter (matchesMonth uid y m))).mem_iff]
    rw [List.mem_filter]

def midJanExpense : Expense :=
  ⟨7, "u", "mid", 10, "Food", ⟨2025, 1, 15, 12, 0, 0, 0⟩, "", "Cash",
    ⟨2025, 1, 15, 12, 0, 0, 0⟩⟩

theorem C2_month_window_witness :
    midJanExpense.date.valid ∧
      (matchesMonth "u" 2025 1 midJanExpense = true ↔
        (midJanExpense.userId = "u" ∧ midJanExpense.date.year = 2025 ∧
          midJanExpense.date.month = 1 ∧
          ¬(midJanExpense.date.day = daysInMonth 2025 1 ∧
            midJanExpense.date.hour = 23 ∧ midJanExpense.date.minute = 59 ∧
            midJanExpense.date.second = 59 ∧ 1 ≤ midJanExpense.date.ms))) :=
  ⟨by decide, (C2_month_window "u" 2025 1 (by decide) midJanExpense (by decide)).1⟩

/-! ### Claim C3 — monthly summary totals, percentages, ordering -/

/-- C3: over a non-empty matched set, the summary's total is the sum of all
group sums (equivalently: of all matched amounts, reported after 2-decimal
rounding), `totalTransactions` is the total matched record count, every
breakdown entry's percentage is `100 × groupSum / total` rounded to 2
decimals, and the category breakdown is sorted by descending group sum. -/
theorem C3_monthly_summary (uid : String) (m y : Nat) (db : List Expense)
    (hne : db.filter (matchesMonth uid y m) ≠ []) :
    monthlyRawTotal uid m y db
        = ((db.filter (matchesMonth uid y m)).map (fun e => e.amount)).sum
      ∧ (getMonthlySummary uid m y db).totalExpenses
        = round2 (monthlyRawTotal uid m y db)
      ∧ (getMonthlySummary uid m y db).totalTransactions
        = (db.filter (matchesMonth uid y m)).length
      ∧ (∀ b ∈ (getMonthlySummary uid m y db).categoryBreakdown,
          b.percentage = round2
            ((((db.filter (matchesMonth uid y m)).filter
                (fun e => e.category == b.category)).map (fun e => e.amount)).sum
              / monthlyRawTotal uid m y db * 100))
      ∧ List.Pairwise (fun a b : BreakdownEntry => b.amount ≤ a.amount)
          (getMonthlySummary uid m y db).categoryBreakdown := by
  have hperm : (monthlyGroups uid m y db).Perm
      (groupAgg (fun e => e.category) (fun e => e.amount)
        (db.filter (matchesMonth uid y m))) :=
    List.perm_insertionSort amountDescRel _
  refine ⟨?_, rfl, ?_, ?_, ?_⟩
  · unfold monthlyRawTotal
    rw [gSum_perm hperm, gSum_groupAgg]
  · show gCount (monthlyGroups uid m y db) = _
    rw [gCount_perm hperm, gCount_groupAgg]
  · intro b hb
    obtain ⟨item, hitem, hshape⟩ := List.mem_map.mp hb
    have hmem : item ∈ groupAgg (fun e => e.category) (fun e => e.amount)
        (db.filter (matchesMonth uid y m)) := hperm.subset hitem
    obtain ⟨k, s, c⟩ := item
    have hentry := groupAgg_entry (fun e => e.category) (fun e => e.amount)
      (db.filter (matchesMonth uid y m)) k s c hmem
    have hcat : b.category = k := by rw [← hshape]
    have hpct : b.percentage = round2 (s / gSum (monthlyGroups uid m y db) * 100) := by
      rw [← hshape]
    rw [hpct, hcat]
    have hs := hentry.1
    simp only [] at hs
    rw [← hs]
    rfl
  · show List.Pairwise _ ((monthlyGroups uid m y db).map _)
    rw [List.pairwise_map]
    have hsorted : List.Pairwise amountDescRel (monthlyGroups uid m y db) :=
      List.sorted_insertionSort amountDescRel _
    exact hsorted.imp (fun h => round2_mono h)

def c3Db : List Expense :=
  [⟨1, "u", "groceries", 60, "Food", ⟨2025, 1, 5, 10, 0, 0, 0⟩, "", "Cash",
      ⟨2025, 1, 5, 10, 0, 0, 0⟩⟩,
    ⟨2, "u", "bus", 40, "Transportation", ⟨2025, 1, 10, 10, 0, 0, 0⟩, "", "Cash",
      ⟨2025, 1, 10, 10, 0, 0, 0⟩⟩]

theorem C3_monthly_summary_witness :
    c3Db.filter (matchesMonth "u" 2025 1) ≠ [] ∧
      (getMonthlySummary "u" 1 2025 c3Db).totalTransactions
        = (c3Db.filter (matchesMonth "u" 2025 1)).length :=
  ⟨by decide, (C3_monthly_summary "u" 1 2025 c3Db (by decide)).2.2.1⟩

/-! ### Claim C1 — list summary totals -/

def c1Db : List Expense :=
  [⟨1, "u", "older", 60, "Food", ⟨2025, 1, 5, 10, 0, 0, 0⟩, "", "Cash",
      ⟨2025, 1, 5, 10, 0, 0, 0⟩⟩,
    ⟨2, "u", "newer", 40, "Food", ⟨2025, 1, 10, 10, 0, 0, 0⟩, "", "Cash",
      ⟨2025, 1, 10, 10, 0, 0, 0⟩⟩]

/-- `GET /api/expenses?limit=1&page=1` with no filters. -/
def c1Query : ListQuery :=
  { category := none, startDate := none, endDate := none,
    limit := some 1, page := 1 }

/-- C1 evaluated at the failing input: with 2 matching records (60 and 40,
page size 1), the summary's record count (from `countDocuments`) covers the
whole filtered set, but the summary's `totalAmount` is reduced over the
returned page only — it reports 40, not the filtered-set total 100. -/
theorem C1_summary_page_bug :
    (getAllExpenses dateDescRel "u" c1Query c1Db).summaryTotalExpenses = 2
      ∧ (getAllExpenses dateDescRel "u" c1Query c1Db).summaryTotalAmount = 40
      ∧ round2 (((c1Db.filter (matchesFilter "u" c1Query)).map
          (fun e => e.amount)).sum) = 100
      ∧ (getAllExpenses dateDescRel "u" c1Query c1Db).summaryTotalAmount
        ≠ round2 (((c1Db.filter (matchesFilter "u" c1Query)).map
            (fun e => e.amount)).sum) := by
  refine ⟨?_, ?_, ?_, ?_⟩ <;>
    norm_num [getAllExpenses, matchesFilter, c1Db, c1Query, List.insertionSort,
      List.orderedInsert, dateDescRel, DateTime.key, round2, round_eq]

/-! ### Claim C4 — pagination arithmetic -/

/-- `Math.ceil(N / P)` computed the usual natural-number way. -/
theorem ceilDiv_eq (N P : Nat) (hP : 0 < P) :
    ceilDiv N P = N / P + (if N % P = 0 then 0 else 1) := by
  unfold ceilDiv
  rcases Nat.eq_zero_or_pos (N % P) with hr | hr
  · rw [if_pos hr]
    have hd := Nat.div_add_mod N P
    have h1 : N + P - 1 = P * (N / P) + (P - 1) := by omega
    have h2 : (P - 1) / P = 0 := Nat.div_eq_of_lt (by omega)
    rw [h1, Nat.mul_add_div hP, h2]
  · rw [if_neg (by omega)]
    have hd := Nat.div_add_mod N P
    have hrP : N % P < P := Nat.mod_lt _ hP
    have h1 : N + P - 1 = P * (N / P) + ((N % P - 1) + P) := by omega
    have h2 : ((N % P - 1) + P) / P = (N % P - 1) / P + 1 :=
      Nat.add_div_right _ hP
    have h3 : (N % P - 1) / P = 0 := Nat.div_eq_of_lt (by omega)
    rw [h1, Nat.mul_add_div hP, h2, h3]

/-- Size of the final page. -/
theorem lastPage_len (N P : Nat) (hP : 0 < P) (hN : 0 < N) :
    min P (N - (ceilDiv N P - 1) * P) = if N % P = 0 then P else N % P := by
  rw [ceilDiv_eq N P hP]
  obtain ⟨q, hq⟩ : ∃ q, N / P = q := ⟨_, rfl⟩
  rcases Nat.eq_zero_or_pos (N % P) with hr | hr
  · rw [if_pos hr, if_pos hr, hq]
    have hd := Nat.div_add_mod N P
    rw [hq] at hd
    have hN' : N = P * q := by omega
    rcases q with _ | q'
    · have h0 : P * 0 = 0 := by ring
      omega
    · have h1 : P * (q' + 1) = P * q' + P := by ring
      have h2 : (q' + 1 + 0 - 1) * P = q' * P := by
        congr 1
      rw [h2]
      have h3 : q' * P = P * q' := Nat.mul_comm _ _
      omega
  · rw [if_neg (by omega), if_neg (by omega), hq]
    have hd := Nat.div_add_mod N P
    rw [hq] at hd
    have hrP : N % P < P := Nat.mod_lt _ hP
    have h2 : (q + 1 - 1) * P = q * P := by
      congr 1
    rw [h2]
    have h3 : q * P = P * q := Nat.mul_comm _ _
    omega

/-- C4: with page size `P > 0` the pagination block reports
`totalPages = ⌈N/P⌉` over the matching count `N`, page `k` is the slice that
skips `(k-1)·P` of the sorted matching records and holds at most `P`, and
the final page holds `N mod P` records (`P` when `P` divides `N`); with the
page size omitted, all matching records are returned and no pagination
block is produced. -/
theorem C4_pagination (r : Expense → Expense → Prop) [DecidableRel r]
    (uid : String) (q : ListQuery) (db : List Expense) :
    (∀ P : Nat, 0 < P → q.limit = some P →
      ((getAllExpenses r uid q db).pagination
          = some { currentPage := q.page
                 , totalPages := ceilDiv (db.filter (matchesFilter uid q)).length P
                 , totalExpenses := (db.filter (matchesFilter uid q)).length
                 , expensesPerPage := P }
        ∧ ceilDiv (db.filter (matchesFilter uid q)).length P
            = (db.filter (matchesFilter uid q)).length / P
              + (if (db.filter (matchesFilter uid q)).length % P = 0 then 0 else 1)
        ∧ (getAllExpenses r uid q db).expenses
            = ((List.insertionSort r (db.filter (matchesFilter uid q))).drop
                ((q.page - 1) * P)).take P
        ∧ (getAllExpenses r uid q db).expenses.length ≤ P
        ∧ (0 < (db.filter (matchesFilter uid q)).length →
            q.page = ceilDiv (db.filter (matchesFilter uid q)).length P →
            (getAllExpenses r uid q db).expenses.length
              = if (db.filter (matchesFilter uid q)).length % P = 0 then P
                else (db.filter (matchesFilter uid q)).length % P)))
    ∧ (q.limit = none →
        ((getAllExpenses r uid q db).expenses
            = List.insertionSort r (db.filter (matchesFilter uid q))
          ∧ (getAllExpenses r uid q db).pagination = none)) := by
  constructor
  · intro P hP hq
    have hP0 : ¬ P = 0 := by omega
    have hlen : (List.insertionSort r (db.filter (matchesFilter uid q))).length
        = (db.filter (matchesFilter uid q)).length :=
      (List.perm_insertionSort r _).length_eq
    refine ⟨?_, ceilDiv_eq _ _ hP, ?_, ?_, ?_⟩
    · simp only [getAllExpenses, hq, hP0, if_false]
      rfl
    · simp only [getAllExpenses, hq, hP0, if_false]
    · simp only [getAllExpenses, hq, hP0, if_false]
      exact List.length_take_le _ _
    · intro hN hpage
      simp only [getAllExpenses, hq, hP0, if_false]
      rw [List.length_take, List.length_drop, hlen, hpage]
      exact lastPage_len _ _ hP hN
  · intro hq
    constructor
    · simp only [getAllExpenses, hq]
    · simp only [getAllExpenses, hq]
      rfl

def c4Db : List Expense :=
  [⟨1, "u", "a", 10, "Food", ⟨2025, 1, 5, 10, 0, 0, 0⟩, "", "Cash",
      ⟨2025, 1, 5, 10, 0, 0, 0⟩⟩,
    ⟨2, "u", "b", 20, "Food", ⟨2025, 1, 10, 10, 0, 0, 0⟩, "", "Cash",
      ⟨2025, 1, 10, 10, 0, 0, 0⟩⟩,
    ⟨3, "u", "c", 30, "Food", ⟨2025, 1, 15, 10, 0, 0, 0⟩, "", "Cash",
      ⟨2025, 1, 15, 10, 0, 0, 0⟩⟩]

/-- `GET /api/expenses?limit=2&page=2`. -/
def c4Query : ListQuery :=
  { category := none, startDate := none, endDate := none,
    limit := some 2, page := 2 }

theorem C4_pagination_witness :
    (getAllExpenses dateDescRel "u" c4Query c4Db).expenses.length
      = if (c4Db.filter (matchesFilter "u" c4Query)).length % 2 = 0 then 2
        else (c4Db.filter (matchesFilter "u" c4Query)).length % 2 :=
  ((C4_pagination dateDescRel "u" c4Query c4Db).1 2 (by decide) rfl).2.2.2.2
    (by decide) (by decide)

/-! ### Claim C5 — user isolation -/

theorem find?_filter_of_imp {α : Type} (p q : α → Bool) (l : List α)
    (h : ∀ a, p a = true → q a = true) :
    (l.filter q).find? p = l.find? p := by
  induction l with
  | nil => rfl
  | cons a t ih =>
      by_cases hq : q a = true
      · rw [List.filter_cons_of_pos hq]
        by_cases hp : p a = true
        · rw [List.find?_cons_of_pos _ hp, List.find?_cons_of_pos _ hp]
        · rw [List.find?_cons_of_neg _ hp, List.find?_cons_of_neg _ hp, ih]
      · have hp : ¬ p a = true := fun hpa => hq (h a hpa)
        rw [List.filter_cons_of_neg hq, List.find?_cons_of_neg _ hp, ih]

theorem filter_eraseP_of_disj {α : Type} (p q : α → Bool) (l : List α)
    (h : ∀ a, p a = true → q a = false) :
    (l.eraseP p).filter q = l.filter q := by
  induction l with
  | nil => rfl
  | cons a t ih =>
      by_cases hp : p a = true
      · rw [List.eraseP_cons_of_pos hp]
        have hq : ¬ q a = true := by rw [h a hp]; simp
        rw [List.filter_cons_of_neg hq]
      · rw [List.eraseP_cons_of_neg (by simpa using hp)]
        by_cases hq : q a = true
        · rw [List.filter_cons_of_pos hq, List.filter_cons_of_pos hq, ih]
        · rw [List.filter_cons_of_neg hq, List.filter_cons_of_neg hq, ih]

theorem filter_map_invariant {α : Type} (p q : α → Bool) (u : α → α) (l : List α)
    (hdisj : ∀ a, p a = true → q a = false)
    (hpres : ∀ a, q (u a) = q a) :
    (l.map (fun x => if p x then u x else x)).filter q = l.filter q := by
  induction l with
  | nil => rfl
  | cons a t ih =>
      simp only [List.map_cons]
      by_cases hp : p a = true
      · rw [if_pos hp]
        have hqa : ¬ q a = true := by rw [hdisj a hp]; simp
        have hqu : ¬ q (u a) = true := by rw [hpres a, hdisj a hp]; simp
        rw [List.filter_cons_of_neg hqu, List.filter_cons_of_neg hqa, ih]
      · rw [if_neg hp]
        by_cases hq : q a = true
        · rw [List.filter_cons_of_pos hq, List.filter_cons_of_pos hq, ih]
        · rw [List.filter_cons_of_neg hq, List.filter_cons_of_neg hq, ih]

/-- Every record the list endpoint returns satisfies the query filter. -/
theorem getAllExpenses_mem_filter (r : Expense → Expense → Prop)
    [DecidableRel r] (uid : String) (q : ListQuery) (db : List Expense) :
    ∀ e ∈ (getAllExpenses r uid q db).expenses, matchesFilter uid q e = true := by
  intro e he
  have hsorted : e ∈ List.insertionSort r (db.filter (matchesFilter uid q)) := by
    unfold getAllExpenses at he
    rcases hql : q.limit with _ | P
    · simpa [hql] using he
    · by_cases hP : P = 0
      · simpa [hql, hP] using he
      · simp only [hql, hP, if_false] at he
        exact List.mem_of_mem_drop (List.mem_of_mem_take he)
  have hf : e ∈ db.filter (matchesFilter uid q) :=
    (List.perm_insertionSort r _).subset hsorted
  exact (List.mem_filter.mp hf).2

/-- C5: operations of user `A` never observe nor affect records of another
user `B`: list and get return only `A`-owned records and their results are
unchanged when `B`'s records are removed from the store, and update and
delete leave `B`'s records exactly as they were, their results likewise
independent of `B`'s records. -/
theorem C5_isolation (A B : String) (hAB : A ≠ B)
    (r : Expense → Expense → Prop) [DecidableRel r]
    (q : ListQuery) (id : Nat) (b : UpdateBody) (db : List Expense) :
    (∀ e ∈ (getAllExpenses r A q db).expenses, e.userId = A)
      ∧ getAllExpenses r A q db
          = getAllExpenses r A q (db.filter (fun e => !(e.userId == B)))
      ∧ (∀ e, getExpenseById A id db = some e → e.userId = A)
      ∧ getExpenseById A id db
          = getExpenseById A id (db.filter (fun e => !(e.userId == B)))
      ∧ (∀ e, (updateExpense A id b db).1 = some e → e.userId = A)
      ∧ (∀ e, (deleteExpense A id db).1 = some e → e.userId = A)
      ∧ (updateExpense A id b db).2.filter (fun e => e.userId == B)
          = db.filter (fun e => e.userId == B)
      ∧ (deleteExpense A id db).2.filter (fun e => e.userId == B)
          = db.filter (fun e => e.userId == B)
      ∧ (updateExpense A id b db).1
          = (updateExpense A id b (db.filter (fun e => !(e.userId == B)))).1
      ∧ (deleteExpense A id db).1
          = (deleteExpense A id (db.filter (fun e => !(e.userId == B)))).1 := by
  have howner : ∀ e : Expense, matchesFilter A q e = true → e.userId = A := by
    intro e he
    unfold matchesFilter at he
    simp only [Bool.and_eq_true, beq_iff_eq] at he
    exact he.1.1.1
  have howns : ∀ e : Expense, ownsMatch A id e = true → e.userId = A := by
    intro e he
    unfold ownsMatch at he
    simp only [Bool.and_eq_true, beq_iff_eq] at he
    exact he.2
  have hnotB : ∀ e : Expense, e.userId = A → (!(e.userId == B)) = true := by
    intro e he
    simp [he, hAB]
  have hfindB : (db.filter (fun e => !(e.userId == B))).find? (ownsMatch A id)
      = db.find? (ownsMatch A id) :=
    find?_filter_of_imp _ _ db (fun e hp => hnotB e (howns e hp))
  refine ⟨?_, ?_, ?_, ?_, ?_, ?_, ?_, ?_, ?_, ?_⟩
  · intro e he
    exact howner e (getAllExpenses_mem_filter r A q db e he)
  · have hff : (db.filter (fun e => !(e.userId == B))).filter (matchesFilter A q)
        = db.filter (matchesFilter A q) := by
      rw [List.filter_filter]
      apply List.filter_congr
      intro a _
      by_cases hm : matchesFilter A q a = true
      · rw [hm, hnotB a (howner a hm)]
        rfl
      · rw [Bool.not_eq_true] at hm
        rw [hm]
        simp
    unfold getAllExpenses
    rw [hff]
  · intro e he
    have hp := List.find?_some he
    exact howns e hp
  · unfold getExpenseById
    exact hfindB.symm
  · unfold updateExpense
    cases hf : db.find? (ownsMatch A id) with
    | none => intro e he; simp at he
    | some e0 =>
        intro e he
        have he0 : e0.userId = A := howns e0 (List.find?_some hf)
        have : e = applyUpdates b e0 := by
          have hh : some (applyUpdates b e0) = some e := he
          exact (Option.some.inj hh).symm
        rw [this]
        exact he0
  · unfold deleteExpense
    cases hf : db.find? (ownsMatch A id) with
    | none => intro e he; simp at he
    | some e0 =>
        intro e he
        have he0 : e0.userId = A := howns e0 (List.find?_some hf)
        have : e = e0 := by
          have hh : some e0 = some e := he
          exact (Option.some.inj hh).symm
        rw [this]
        exact he0
  · unfold updateExpense
    cases hf : db.find? (ownsMatch A id) with
    | none => rfl
    | some e =>
        exact filter_map_invariant (ownsMatch A id) (fun e => e.userId == B)
          (applyUpdates b) db
          (fun a hp => by simp [howns a hp, hAB])
          (fun a => rfl)
  · unfold deleteExpense
    cases hf : db.find? (ownsMatch A id) with
    | none => rfl
    | some e =>
        exact filter_eraseP_of_disj (ownsMatch A id) (fun e => e.userId == B) db
          (fun a hp => by simp [howns a hp, hAB])
  · unfold updateExpense
    rw [hfindB]
    cases db.find? (ownsMatch A id) <;> rfl
  · unfold deleteExpense
    rw [hfindB]
    cases db.find? (ownsMatch A id) <;> rfl

def c5Db : List Expense :=
  [⟨1, "alice", "a", 10, "Food", ⟨2025, 1, 5, 10, 0, 0, 0⟩, "", "Cash",
      ⟨2025, 1, 5, 10, 0, 0, 0⟩⟩,
    ⟨2, "bob", "b", 20, "Food", ⟨2025, 1, 10, 10, 0, 0, 0⟩, "", "Cash",
      ⟨2025, 1, 10, 10, 0, 0, 0⟩⟩]

theorem C5_isolation_witness :
    (deleteExpense "alice" 1 c5Db).2.filter (fun e => e.userId == "bob")
      = c5Db.filter (fun e => e.userId == "bob") :=
  (C5_isolation "alice" "bob" (by decide) dateDescRel
    { category := none, startDate := none, endDate := none,
      limit := none, page := 1 } 1
    { title := none, amount := none, category := none, date := none,
      notes := none, paymentMethod := none, userId := none, createdAt := none }
    c5Db).2.2.2.2.2.2.2.1

/-! ### Claim C6 — Not-Found semantics and delete idempotence -/

theorem ownsMatch_iff (uid : String) (id : Nat) (e : Expense) :
    ownsMatch uid id e = true ↔ (e.id = id ∧ e.userId = uid) := by
  unfold ownsMatch
  simp [Bool.and_eq_true, beq_iff_eq]

/-- After the unique record carrying `id` is erased, no further lookup for
`(id, uid)` can succeed (Mongo `_id`s are unique, hence the Nodup
hypothesis). -/
theorem find?_eraseP_ownsMatch (uid : String) (id : Nat) (db : List Expense)
    (h : (db.map (fun e => e.id)).Nodup) :
    (db.eraseP (ownsMatch uid id)).find? (ownsMatch uid id) = none := by
  induction db with
  | nil => rfl
  | cons a t ih =>
      have hmap : (a :: t).map (fun e => e.id)
          = a.id :: t.map (fun e => e.id) := rfl
      rw [hmap] at h
      have hcons := List.nodup_cons.mp h
      by_cases hp : ownsMatch uid id a = true
      · rw [List.eraseP_cons_of_pos hp]
        rw [List.find?_eq_none]
        intro x hx hpx
        have hida : a.id = id := ((ownsMatch_iff uid id a).mp hp).1
        have hidx : x.id = id := ((ownsMatch_iff uid id x).mp hpx).1
        apply hcons.1
        rw [hida, ← hidx]
        exact List.mem_map_of_mem _ hx
      · rw [List.eraseP_cons_of_neg (by simpa using hp),
          List.find?_cons_of_neg _ hp]
        exact ih hcons.2

/-- C6: get, update and delete succeed exactly when a record with the given
id exists and is owned by the caller; both ownership mismatch and
nonexistence produce the same Not-Found outcome (and leave the store
untouched for update/delete); deleting the same id twice yields Not-Found
the second time. -/
theorem C6_not_found (uid : String) (id : Nat) (b : UpdateBody)
    (db : List Expense) (hnodup : (db.map (fun e => e.id)).Nodup) :
    ((getExpenseById uid id db).isSome
        ↔ ∃ e ∈ db, e.id = id ∧ e.userId = uid)
      ∧ ((updateExpense uid id b db).1.isSome
        ↔ ∃ e ∈ db, e.id = id ∧ e.userId = uid)
      ∧ ((deleteExpense uid id db).1.isSome
        ↔ ∃ e ∈ db, e.id = id ∧ e.userId = uid)
      ∧ (¬ (∃ e ∈ db, e.id = id ∧ e.userId = uid) →
          (getExpenseById uid id db = none
            ∧ updateExpense uid id b db = (none, db)
            ∧ deleteExpense uid id db = (none, db)))
      ∧ (deleteExpense uid id (deleteExpense uid id db).2).1 = none := by
  have hiff : (db.find? (ownsMatch uid id)).isSome
      ↔ ∃ e ∈ db, e.id = id ∧ e.userId = uid := by
    rw [List.find?_isSome]
    constructor
    · rintro ⟨e, he, hp⟩
      exact ⟨e, he, (ownsMatch_iff uid id e).mp hp⟩
    · rintro ⟨e, he, hp⟩
      exact ⟨e, he, (ownsMatch_iff uid id e).mpr hp⟩
  have hnone : ¬ (∃ e ∈ db, e.id = id ∧ e.userId = uid) →
      db.find? (ownsMatch uid id) = none := by
    intro hno
    rcases hf : db.find? (ownsMatch uid id) with _ | e
    · rfl
    · exact absurd (hiff.mp (by rw [hf]; rfl)) hno
  refine ⟨hiff, ?_, ?_, ?_, ?_⟩
  · unfold updateExpense
    rcases hf : db.find? (ownsMatch uid id) with _ | e <;>
      rw [hf] at hiff <;> simpa using hiff
  · unfold deleteExpense
    rcases hf : db.find? (ownsMatch uid id) with _ | e <;>
      rw [hf] at hiff <;> simpa using hiff
  · intro hno
    have hf := hnone hno
    unfold getExpenseById updateExpense deleteExpense
    rw [hf]
    exact ⟨rfl, rfl, rfl⟩
  · unfold deleteExpense
    rcases hf : db.find? (ownsMatch uid id) with _ | e
    · simp only [hf]
    · simp only [hf]
      rw [find?_eraseP_ownsMatch uid id db hnodup]

def c6Db : List Expense :=
  [⟨1, "u", "a", 10, "Food", ⟨2025, 1, 5, 10, 0, 0, 0⟩, "", "Cash",
      ⟨2025, 1, 5, 10, 0, 0, 0⟩⟩,
    ⟨2, "u", "b", 20, "Food", ⟨2025, 1, 10, 10, 0, 0, 0⟩, "", "Cash",
      ⟨2025, 1, 10, 10, 0, 0, 0⟩⟩]

theorem C6_not_found_witness :
    (deleteExpense "u" 1 (deleteExpense "u" 1 c6Db).2).1 = none :=
  (C6_not_found "u" 1
    { title := none, amount := none, category := none, date := none,
      notes := none, paymentMethod := none, userId := none, createdAt := none }
    c6Db (by decide)).2.2.2.2

/-! ### Claim C7 — partial update frame -/

/-- C7: an update of an owned record sets exactly the allow-listed fields
present in the body (`getD` keeps the prior value when the field is absent);
`userId` and `createdAt` are never copied from the body, whatever it
contains, and the store rewrites records only through that same field
scan. -/
theorem C7_update_frame (uid : String) (id : Nat) (b : UpdateBody)
    (db : List Expense) (e : Expense)
    (hfind : db.find? (ownsMatch uid id) = some e) :
    (updateExpense uid id b db).1 = some
        { e with
          title := b.title.getD e.title
          amount := b.amount.getD e.amount
          category := b.category.getD e.category
          date := b.date.getD e.date
          notes := b.notes.getD e.notes
          paymentMethod := b.paymentMethod.getD e.paymentMethod }
      ∧ ((updateExpense uid id b db).1.map (fun x => x.userId)
          = some e.userId)
      ∧ ((updateExpense uid id b db).1.map (fun x => x.createdAt)
          = some e.createdAt)
      ∧ (updateExpense uid id b db).2 = db.map (fun x =>
          if ownsMatch uid id x then
            { x with
              title := b.title.getD x.title
              amount := b.amount.getD x.amount
              category := b.category.getD x.category
              date := b.date.getD x.date
              notes := b.notes.getD x.notes
              paymentMethod := b.paymentMethod.getD x.paymentMethod }
          else x) := by
  unfold updateExpense
  rw [hfind]
  exact ⟨rfl, rfl, rfl, rfl⟩

def c7Db : List Expense :=
  [⟨1, "u", "lunch", 12, "Food", ⟨2025, 1, 5, 10, 0, 0, 0⟩, "", "Cash",
      ⟨2025, 1, 5, 10, 0, 0, 0⟩⟩]

/-- A body that tries to overwrite the owner and the creation timestamp and
changes only the title among the allow-listed fields. -/
def c7Body : UpdateBody :=
  { title := some "dinner", amount := none, category := none, date := none,
    notes := none, paymentMethod := none, userId := some "mallory",
    createdAt := some ⟨1999, 1, 1, 0, 0, 0, 0⟩ }

theorem C7_update_frame_witness :
    ((updateExpense "u" 1 c7Body c7Db).1.map (fun x => x.userId)
        = some "u")
      ∧ ((updateExpense "u" 1 c7Body c7Db).1.map (fun x => x.createdAt)
        = some ⟨2025, 1, 5, 10, 0, 0, 0⟩) :=
  ⟨(C7_update_frame "u" 1 c7Body c7Db
      ⟨1, "u", "lunch", 12, "Food", ⟨2025, 1, 5, 10, 0, 0, 0⟩, "", "Cash",
        ⟨2025, 1, 5, 10, 0, 0, 0⟩⟩ (by decide)).2.1,
    (C7_update_frame "u" 1 c7Body c7Db
      ⟨1, "u", "lunch", 12, "Food", ⟨2025, 1, 5, 10, 0, 0, 0⟩, "", "Cash",
        ⟨2025, 1, 5, 10, 0, 0, 0⟩⟩ (by decide)).2.2.1⟩

/-! ### Claim C8 — category report statistics -/

theorem foldl_max_mem : ∀ (t : List ℚ) (a : ℚ), t.foldl max a ∈ a :: t := by
  intro t
  induction t with
  | nil => intro a; simp
  | cons b t ih =>
      intro a
      rw [List.foldl_cons]
      rcases List.mem_cons.mp (ih (max a b)) with h | h
      · rw [h]
        rcases max_choice a b with hm | hm <;> rw [hm] <;> simp
      · simp [h]

theorem le_foldl_max : ∀ (t : List ℚ) (a : ℚ),
    a ≤ t.foldl max a ∧ ∀ x ∈ t, x ≤ t.foldl max a := by
  intro t
  induction t with
  | nil => intro a; simp
  | cons b t ih =>
      intro a
      rw [List.foldl_cons]
      obtain ⟨h1, h2⟩ := ih (max a b)
      refine ⟨le_trans (le_max_left a b) h1, ?_⟩
      intro x hx
      rcases List.mem_cons.mp hx with h | h
      · rw [h]
        exact le_trans (le_max_right a b) h1
      · exact h2 x h

theorem foldl_min_mem : ∀ (t : List ℚ) (a : ℚ), t.foldl min a ∈ a :: t := by
  intro t
  induction t with
  | nil => intro a; simp
  | cons b t ih =>
      intro a
      rw [List.foldl_cons]
      rcases List.mem_cons.mp (ih (min a b)) with h | h
      · rw [h]
        rcases min_choice a b with hm | hm <;> rw [hm] <;> simp
      · simp [h]

theorem foldl_min_le : ∀ (t : List ℚ) (a : ℚ),
    t.foldl min a ≤ a ∧ ∀ x ∈ t, t.foldl min a ≤ x := by
  intro t
  induction t with
  | nil => intro a; simp
  | cons b t ih =>
      intro a
      rw [List.foldl_cons]
      obtain ⟨h1, h2⟩ := ih (min a b)
      refine ⟨le_trans h1 (min_le_left a b), ?_⟩
      intro x hx
      rcases List.mem_cons.mp hx with h | h
      · rw [h]
        exact le_trans h1 (min_le_right a b)
      · exact h2 x h

theorem maxAmt_spec (l : List ℚ) (h : l ≠ []) :
    maxAmt l ∈ l ∧ ∀ x ∈ l, x ≤ maxAmt l := by
  cases l with
  | nil => exact absurd rfl h
  | cons a t =>
      refine ⟨foldl_max_mem t a, ?_⟩
      intro x hx
      obtain ⟨h1, h2⟩ := le_foldl_max t a
      rcases List.mem_cons.mp hx with hh | hh
      · subst hh; exact h1
      · exact h2 x hh

theorem minAmt_spec (l : List ℚ) (h : l ≠ []) :
    minAmt l ∈ l ∧ ∀ x ∈ l, minAmt l ≤ x := by
  cases l with
  | nil => exact absurd rfl h
  | cons a t =>
      refine ⟨foldl_min_mem t a, ?_⟩
      intro x hx
      obtain ⟨h1, h2⟩ := foldl_min_le t a
      rcases List.mem_cons.mp hx with hh | hh
      · subst hh; exact h1
      · exact h2 x hh

/-- C8: the category report's statistics block reports the count of
matching records, their 2-decimal-rounded sum, their rounded mean (0 for an
empty set), and the rounded maximum and minimum amounts (0 for an empty
set); the maximum/minimum really are amounts of matching records bounding
all the others. -/
theorem C8_category_statistics (uid cat : String) (sd ed : Option DateTime)
    (db : List Expense) :
    (getCategoryReport uid cat sd ed db).statistics.totalExpenses
        = (db.filter (matchesCategoryFilter uid cat sd ed)).length
      ∧ (getCategoryReport uid cat sd ed db).statistics.totalAmount
        = round2 (((db.filter (matchesCategoryFilter uid cat sd ed)).map
            (fun e => e.amount)).sum)
      ∧ (db.filter (matchesCategoryFilter uid cat sd ed) = [] →
          (getCategoryReport uid cat sd ed db).statistics.averageAmount = 0
            ∧ (getCategoryReport uid cat sd ed db).statistics.maxExpense = 0
            ∧ (getCategoryReport uid cat sd ed db).statistics.minExpense = 0)
      ∧ (db.filter (matchesCategoryFilter uid cat sd ed) ≠ [] →
          ((getCategoryReport uid cat sd ed db).statistics.averageAmount
              = round2 ((((db.filter (matchesCategoryFilter uid cat sd ed)).map
                  (fun e => e.amount)).sum)
                / ((db.filter (matchesCategoryFilter uid cat sd ed)).length : ℚ))
            ∧ (∃ e ∈ db.filter (matchesCategoryFilter uid cat sd ed),
                (getCategoryReport uid cat sd ed db).statistics.maxExpense
                    = round2 e.amount
                  ∧ ∀ x ∈ db.filter (matchesCategoryFilter uid cat sd ed),
                      x.amount ≤ e.amount)
            ∧ (∃ e ∈ db.filter (matchesCategoryFilter uid cat sd ed),
                (getCategoryReport uid cat sd ed db).statistics.minExpense
                    = round2 e.amount
                  ∧ ∀ x ∈ db.filter (matchesCategoryFilter uid cat sd ed),
                      e.amount ≤ x.amount))) := by
  have hperm : (List.insertionSort dateDescRel
      (db.filter (matchesCategoryFilter uid cat sd ed))).Perm
        (db.filter (matchesCategoryFilter uid cat sd ed)) :=
    List.perm_insertionSort dateDescRel _
  have hlen : (List.insertionSort dateDescRel
      (db.filter (matchesCategoryFilter uid cat sd ed))).length
        = (db.filter (matchesCategoryFilter uid cat sd ed)).length :=
    hperm.length_eq
  have hsum : ((List.insertionSort dateDescRel
      (db.filter (matchesCategoryFilter uid cat sd ed))).map
        (fun e => e.amount)).sum
      = ((db.filter (matchesCategoryFilter uid cat sd ed)).map
        (fun e => e.amount)).sum :=
    (hperm.map (fun e => e.amount)).sum_eq
  refine ⟨?_, ?_, ?_, ?_⟩
  · show (categoryStatistics _).totalExpenses = _
    simp only [categoryStatistics]
    exact hlen
  · show (categoryStatistics _).totalAmount = _
    simp only [categoryStatistics]
    rw [hsum]
  · intro hnil
    have hsnil : List.insertionSort dateDescRel
        (db.filter (matchesCategoryFilter uid cat sd ed)) = [] := by
      rw [hnil]
      rfl
    show (categoryStatistics _).averageAmount = 0
        ∧ (categoryStatistics _).maxExpense = 0
        ∧ (categoryStatistics _).minExpense = 0
    simp only [categoryStatistics]
    rw [hsnil]
    norm_num [round2]
  · intro hne
    have hspos : 0 < (List.insertionSort dateDescRel
        (db.filter (matchesCategoryFilter uid cat sd ed))).length := by
      rw [hlen]
      exact List.length_pos.mpr hne
    have hmne : (List.insertionSort dateDescRel
        (db.filter (matchesCategoryFilter uid cat sd ed))).map
          (fun e => e.amount) ≠ [] := by
      intro hh
      rw [List.map_eq_nil_iff] at hh
      rw [hh] at hspos
      simp at hspos
    refine ⟨?_, ?_, ?_⟩
    · show (categoryStatistics _).averageAmount = _
      simp only [categoryStatistics]
      rw [if_pos hspos, hsum, hlen]
    · obtain ⟨hmem, hub⟩ := maxAmt_spec _ hmne
      obtain ⟨e, he, heq⟩ := List.mem_map.mp hmem
      refine ⟨e, hperm.subset he, ?_, ?_⟩
      · show (categoryStatistics _).maxExpense = _
        simp only [categoryStatistics]
        rw [if_pos hspos, heq]
      · intro x hx
        rw [heq]
        exact hub x.amount (List.mem_map_of_mem _ (hperm.symm.subset hx))
    · obtain ⟨hmem, hlb⟩ := minAmt_spec _ hmne
      obtain ⟨e, he, heq⟩ := List.mem_map.mp hmem
      refine ⟨e, hperm.subset he, ?_, ?_⟩
      · show (categoryStatistics _).minExpense = _
        simp only [categoryStatistics]
        rw [if_pos hspos, heq]
      · intro x hx
        rw [heq]
        exact hlb x.amount (List.mem_map_of_mem _ (hperm.symm.subset hx))

def c8Db : List Expense :=
  [⟨1, "u", "a", 100, "Food", ⟨2025, 1, 5, 10, 0, 0, 0⟩, "", "Cash",
      ⟨2025, 1, 5, 10, 0, 0, 0⟩⟩,
    ⟨2, "u", "b", 50, "Food", ⟨2025, 1, 20, 10, 0, 0, 0⟩, "", "Cash",
      ⟨2025, 1, 20, 10, 0, 0, 0⟩⟩]

theorem C8_category_statistics_witness :
    (getCategoryReport "u" "Food" none none c8Db).statistics.totalExpenses
      = (c8Db.filter (matchesCategoryFilter "u" "Food" none none)).length :=
  (C8_category_statistics "u" "Food" none none c8Db).1

/-! ### Claim C9 — monthly trend of the category report -/

/-- C9: the trend groups the report's records by their "YYYY-MM" label, its
entries are sorted ascending by label with no duplicate label, each entry
carries the rounded sum, the count and the rounded mean of its group (a
non-empty group), and every record's label is represented. -/
theorem C9_monthly_trend (uid cat : String) (sd ed : Option DateTime)
    (db : List Expense) :
    List.Pairwise (fun a b : TrendEntry => a.month ≤ b.month)
        (getCategoryReport uid cat sd ed db).monthlyTrend
      ∧ ((getCategoryReport uid cat sd ed db).monthlyTrend.map
          (fun t => t.month)).Nodup
      ∧ (∀ t ∈ (getCategoryReport uid cat sd ed db).monthlyTrend,
          t.total = round2 ((((getCategoryReport uid cat sd ed db).expenses.filter
              (fun e => monthLabel e.date == t.month)).map (fun e => e.amount)).sum)
            ∧ t.count = ((getCategoryReport uid cat sd ed db).expenses.filter
                (fun e => monthLabel e.date == t.month)).length
            ∧ t.average = round2
                (((((getCategoryReport uid cat sd ed db).expenses.filter
                    (fun e => monthLabel e.date == t.month)).map
                      (fun e => e.amount)).sum)
                  / ((((getCategoryReport uid cat sd ed db).expenses.filter
                    (fun e => monthLabel e.date == t.month)).length : ℚ)))
            ∧ ((getCategoryReport uid cat sd ed db).expenses.filter
                (fun e => monthLabel e.date == t.month)) ≠ [])
      ∧ (∀ e ∈ (getCategoryReport uid cat sd ed db).expenses,
          ∃ t ∈ (getCategoryReport uid cat sd ed db).monthlyTrend,
            t.month = monthLabel e.date) := by
  have hperm : (List.insertionSort monthAscRel
      (groupAgg (fun e => monthLabel e.date) (fun e => e.amount)
        (getCategoryReport uid cat sd ed db).expenses)).Perm
      (groupAgg (fun e => monthLabel e.date) (fun e => e.amount)
        (getCategoryReport uid cat sd ed db).expenses) :=
    List.perm_insertionSort monthAscRel _
  refine ⟨?_, ?_, ?_, ?_⟩
  · show List.Pairwise _ ((List.insertionSort monthAscRel _).map _)
    rw [List.pairwise_map]
    have hsorted : List.Pairwise monthAscRel (List.insertionSort monthAscRel
        (groupAgg (fun e => monthLabel e.date) (fun e => e.amount)
          (getCategoryReport uid cat sd ed db).expenses)) :=
      List.sorted_insertionSort monthAscRel _
    exact hsorted.imp (fun h => h)
  · show ((List.insertionSort monthAscRel _).map _ |>.map _).Nodup
    rw [List.map_map]
    have hnd : (gkeys (groupAgg (fun e => monthLabel e.date) (fun e => e.amount)
        (getCategoryReport uid cat sd ed db).expenses)).Nodup :=
      nodup_gkeys_groupAgg _ _ _
    have hpk := (hperm.map (fun x => x.1)).nodup_iff
    unfold gkeys at hnd
    exact hpk.mpr hnd
  · intro t ht
    obtain ⟨item, hitem, hshape⟩ := List.mem_map.mp ht
    have hmem : item ∈ groupAgg (fun e => monthLabel e.date) (fun e => e.amount)
        (getCategoryReport uid cat sd ed db).expenses := hperm.subset hitem
    obtain ⟨k, s, c⟩ := item
    have hentry := groupAgg_entry (fun e => monthLabel e.date)
      (fun e => e.amount) (getCategoryReport uid cat sd ed db).expenses k s c hmem
    have hk : t.month = k := by rw [← hshape]
    have ht1 : t.total = round2 s := by rw [← hshape]
    have ht2 : t.count = c := by rw [← hshape]
    have ht3 : t.average = round2 (s / (c : ℚ)) := by rw [← hshape]
    rw [ht1, ht2, ht3, hk, ← hentry.1, ← hentry.2.1]
    exact ⟨rfl, rfl, rfl, hentry.2.2⟩
  · intro e he
    obtain ⟨s, c, hm⟩ := groupAgg_covers (fun e => monthLabel e.date)
      (fun e => e.amount) (getCategoryReport uid cat sd ed db).expenses e he
    refine ⟨⟨monthLabel e.date, round2 s, c, round2 (s / (c : ℚ))⟩, ?_, rfl⟩
    show _ ∈ (List.insertionSort monthAscRel _).map _
    exact List.mem_map_of_mem _ (hperm.symm.subset hm)

def c9Db : List Expense :=
  [⟨1, "u", "jan", 10, "Food", ⟨2025, 1, 5, 10, 0, 0, 0⟩, "", "Cash",
      ⟨2025, 1, 5, 10, 0, 0, 0⟩⟩,
    ⟨2, "u", "feb", 20, "Food", ⟨2025, 2, 5, 10, 0, 0, 0⟩, "", "Cash",
      ⟨2025, 2, 5, 10, 0, 0, 0⟩⟩]

theorem C9_monthly_trend_witness :
    ((getCategoryReport "u" "Food" none none c9Db).monthlyTrend.map
      (fun t => t.month)).Nodup :=
  (C9_monthly_trend "u" "Food" none none c9Db).2.1

/-! ### Claim C10 — percentage divisions are guarded by positivity -/

theorem sum_amounts_pos (l : List Expense) (hpos : ∀ e ∈ l, 0 < e.amount)
    (hne : l ≠ []) : 0 < (l.map (fun e => e.amount)).sum := by
  apply List.sum_pos
  · intro a ha
    obtain ⟨e, he, heq⟩ := List.mem_map.mp ha
    rw [← heq]
    exact hpos e he
  · intro hh
    rw [List.map_eq_nil_iff] at hh
    exact hne hh

/-- C10: under the schema invariant `amount > 0`, each breakdown whose
percentages divide by the overall total is non-empty exactly when records
matched, and in that case the dividing total is strictly positive — the
divide-by-zero branch is unreachable. -/
theorem C10_percentage_guard (uid : String) (m y : Nat)
    (sd ed : Option DateTime) (db : List Expense)
    (hpos : ∀ e ∈ db, 0 < e.amount) :
    ((getMonthlySummary uid m y db).categoryBreakdown = []
        ↔ db.filter (matchesMonth uid y m) = [])
      ∧ (db.filter (matchesMonth uid y m) ≠ [] →
          0 < monthlyRawTotal uid m y db)
      ∧ ((getOverallStats uid sd ed db).categoryBreakdown = []
        ↔ db.filter (matchesDateFilter uid sd ed) = [])
      ∧ ((getOverallStats uid sd ed db).paymentMethodBreakdown = []
        ↔ db.filter (matchesDateFilter uid sd ed) = [])
      ∧ (db.filter (matchesDateFilter uid sd ed) ≠ [] →
          0 < overallRawTotal uid sd ed db) := by
  have hposf : ∀ (p : Expense → Bool), ∀ e ∈ db.filter p, 0 < e.amount :=
    fun p e he => hpos e (List.mem_filter.mp he).1
  refine ⟨?_, ?_, ?_, ?_, ?_⟩
  · show ((List.insertionSort amountDescRel _).map _) = [] ↔ _
    rw [List.map_eq_nil_iff]
    constructor
    · intro hh
      rw [← groupAgg_eq_nil_iff (fun e => e.category) (fun e => e.amount)
        (db.filter (matchesMonth uid y m))]
      have := (List.perm_insertionSort amountDescRel
        (groupAgg (fun e => e.category) (fun e => e.amount)
          (db.filter (matchesMonth uid y m)))).length_eq
      rw [hh] at this
      exact List.length_eq_zero.mp this.symm
    · intro hh
      show List.insertionSort amountDescRel
        (groupAgg (fun e => e.category) (fun e => e.amount)
          (db.filter (matchesMonth uid y m))) = []
      rw [hh]
      rfl
  · intro hne
    unfold monthlyRawTotal monthlyGroups
    rw [gSum_perm (List.perm_insertionSort amountDescRel _), gSum_groupAgg]
    exact sum_amounts_pos _ (hposf _) hne
  · show ((List.insertionSort amountDescRel _).map _) = [] ↔ _
    rw [List.map_eq_nil_iff]
    constructor
    · intro hh
      rw [← groupAgg_eq_nil_iff (fun e => e.category) (fun e => e.amount)
        (db.filter (matchesDateFilter uid sd ed))]
      have := (List.perm_insertionSort amountDescRel
        (groupAgg (fun e => e.category) (fun e => e.amount)
          (db.filter (matchesDateFilter uid sd ed)))).length_eq
      rw [hh] at this
      exact List.length_eq_zero.mp this.symm
    · intro hh
      show List.insertionSort amountDescRel
        (groupAgg (fun e => e.category) (fun e => e.amount)
          (db.filter (matchesDateFilter uid sd ed))) = []
      rw [hh]
      rfl
  · show ((List.insertionSort amountDescRel _).map _) = [] ↔ _
    rw [List.map_eq_nil_iff]
    constructor
    · intro hh
      rw [← groupAgg_eq_nil_iff (fun e => e.paymentMethod) (fun e => e.amount)
        (db.filter (matchesDateFilter uid sd ed))]
      have := (List.perm_insertionSort amountDescRel
        (groupAgg (fun e => e.paymentMethod) (fun e => e.amount)
          (db.filter (matchesDateFilter uid sd ed)))).length_eq
      rw [hh] at this
      exact List.length_eq_zero.mp this.symm
    · intro hh
      show List.insertionSort amountDescRel
        (groupAgg (fun e => e.paymentMethod) (fun e => e.amount)
          (db.filter (matchesDateFilter uid sd ed))) = []
      rw [hh]
      rfl
  · intro hne
    unfold overallRawTotal
    exact sum_amounts_pos _ (hposf _) hne

def c10Db : List Expense :=
  [⟨1, "u", "a", 10, "Food", ⟨2025, 1, 5, 10, 0, 0, 0⟩, "", "Cash",
      ⟨2025, 1, 5, 10, 0, 0, 0⟩⟩]

theorem C10_percentage_guard_witness :
    c10Db.filter (matchesMonth "u" 2025 1) ≠ [] ∧
      0 < monthlyRawTotal "u" 1 2025 c10Db :=
  ⟨by decide,
    (C10_percentage_guard "u" 1 2025 none none c10Db
      (by intro e he; fin_cases he; norm_num [c10Db])).2.1 (by decide)⟩
